import Mathlib

/-!
Shallow embedding of `moleculib/protein/dataset.py` (class `ProteinDataset`).

Modelling conventions:
* numpy arrays of residue/chain data become `List Nat`;
* `resolution` (a Python float used only in `≤` comparisons) becomes `Int`;
* a pandas `DataFrame` of metadata becomes `List MetadataRow`;
* Python exceptions become `Except`/`Option` results;
* the random shuffle `metadata.sample(frac=1)` becomes an explicit
  `shuffle : List MetadataRow → List MetadataRow` parameter, constrained to be
  a permutation in the theorems that need it;
* `tqdm.contrib.concurrent.process_map` (order-preserving parallel map with
  `chunksize=50`) becomes `processMap`, a chunked map over the input list.
-/

/-- Modelled from the spec: the reserved unknown-residue token constant
`UNK_TOKEN` is imported from the `alphabet` module, which is not part of the
sources; only its identity as a fixed reserved value matters to the claims,
not its concrete numeric value. -/
def UNK_TOKEN : Nat := 0

/-- Embeds `MAX_COMPLEX_SIZE = 32` from `dataset.py`. -/
def MAX_COMPLEX_SIZE : Nat := 32

/-- Embeds the fields of a `ProteinDatum` that `dataset.py` reads:
`idcode`, `resolution`, `sequence`, `residue_token`, `chain_token`. -/
structure ProteinDatum where
  idcode : String
  resolution : Int
  sequence : List Nat
  residue_token : List Nat
  chain_token : List Nat
deriving DecidableEq

/-- Embeds one metadata row as produced by `_extract_datum_row`: the fixed
columns `idcode`, `standard`, `resolution`, `num_res`, plus the per-chain
columns `num_res_{chain}` represented as an association list from chain
index to residue count. -/
structure MetadataRow where
  idcode : String
  standard : Bool
  resolution : Int
  num_res : Nat
  chain_counts : List (Nat × Nat)
deriving DecidableEq

/-- Embeds `np.max` on a nonempty array of nonnegative integers (the source
only applies it to `datum.chain_token` of records whose sequence is
nonempty; `np.max` errors on an empty array, while this total model returns
0 there). -/
def npMax (l : List Nat) : Nat := l.foldl Nat.max 0

/-- Embeds `ProteinDataset._extract_datum_row`:
`is_standard = not (residue_token == UNK_TOKEN).all()`;
`num_res = len(sequence)`; and for `chain in range(np.max(chain_token))`
the column `num_res_{chain} = (chain_token == chain).sum()`.
Note the loop bound is `np.max(chain_token)` exclusive, exactly as in the
source. -/
def extract_datum_row (datum : ProteinDatum) : MetadataRow :=
  let is_standard : Bool := ! datum.residue_token.all (fun t => t == UNK_TOKEN)
  { idcode := datum.idcode
    standard := is_standard
    resolution := datum.resolution
    num_res := datum.sequence.length
    chain_counts := (List.range (npMax datum.chain_token)).map
      (fun chain => (chain, datum.chain_token.count chain)) }

/-- Embeds the exceptions tolerated by `_maybe_fetch_and_extract`:
`ValueError`/`IndexError` (malformed content) and
`biotite.database.RequestError` (remote request failure). -/
inductive FetchError
  | contentError
  | requestError
deriving DecidableEq

/-- Embeds `ProteinDataset._maybe_fetch_and_extract`: fetch the record
(tolerated exceptions yield `None`), return `None` when the fetched
sequence is empty, otherwise extract the metadata row.  The remote source
`ProteinDatum.fetch_pdb_id` is external and is passed in as `fetch`. -/
def maybe_fetch_and_extract (fetch : String → Except FetchError ProteinDatum)
    (pdb_id : String) : Option MetadataRow :=
  match fetch pdb_id with
  | Except.error _ => none
  | Except.ok datum =>
      if datum.sequence.length == 0 then none
      else some (extract_datum_row datum)

/-- Embeds `process_map(extractor, pdb_ids, max_workers=..., chunksize=50)`:
an order-preserving map executed chunk by chunk (chunk size 50). -/
def processMap (f : String → Option MetadataRow) : List String → List (Option MetadataRow)
  | [] => []
  | x :: xs => ((x :: xs).take 50).map f ++ processMap f ((x :: xs).drop 50)
termination_by l => l.length
decreasing_by simp; omega

/-- Embeds the row-producing part of `ProteinDataset.build`: map the
extractor over `pdb_ids` (via the worker pool when `max_workers > 1`),
drop the `None` results, and concatenate the surviving rows onto the empty
schema table. Persistence (`to_hdf`) and the final view construction are
side effects outside this table computation. -/
def build (fetch : String → Except FetchError ProteinDatum)
    (pdb_ids : List String) (max_workers : Nat) : List MetadataRow :=
  let extractor := maybe_fetch_and_extract fetch
  let rows := if 1 < max_workers then processMap extractor pdb_ids
              else pdb_ids.map extractor
  rows.filterMap id

/-- Embeds the `protein_attrs` list from `ProteinDataset.__init__`
(`residue_token` appears twice there, as in the source). -/
def protein_attrs : List String :=
  ["idcode", "resolution", "residue_token", "residue_index", "residue_token",
   "residue_mask", "chain_token", "atom_token", "atom_coord", "atom_mask"]

/-- Embeds the attribute-validation loop of `ProteinDataset.__init__`:
`for attr in attrs: if attr not in protein_attrs: raise AttributeError`. -/
def checkAttrs : List String → Except String Unit
  | [] => Except.ok ()
  | a :: rest =>
      if protein_attrs.contains a then checkAttrs rest
      else Except.error ("attribute " ++ a ++ " is invalid")

/-- Embeds the state held by a constructed `ProteinDataset`:
`base_path`, `transform`, the filtered/shuffled `metadata`, and `attrs`. -/
structure ProteinDataset where
  base_path : String
  transform : Option (ProteinDatum → ProteinDatum)
  metadata : List MetadataRow
  attrs : List String

/-- Embeds the column access `row["num_res_0"]`: the chain-0 residue count
when the row has that column, `none` standing for pandas `NaN`. -/
def num_res_0 (r : MetadataRow) : Option Nat := r.chain_counts.lookup 0

/-- Embeds the three sequential filters of `ProteinDataset.__init__`:
`resolution <= max_resolution`, `num_res_0 >= min_sequence_length`,
`num_res_0 <= max_sequence_length`, each applied only when its threshold is
supplied.  A pandas comparison against `NaN` (a missing `num_res_0`) is
`False`, hence the `none => false` branches. -/
def filteredTable (metadata : List MetadataRow) (max_resolution : Option Int)
    (min_sequence_length max_sequence_length : Option Nat) : List MetadataRow :=
  let m1 := match max_resolution with
    | none => metadata
    | some R => metadata.filter (fun r => decide (r.resolution ≤ R))
  let m2 := match min_sequence_length with
    | none => m1
    | some n => m1.filter (fun r =>
        match num_res_0 r with | some k => decide (n ≤ k) | none => false)
  let m3 := match max_sequence_length with
    | none => m2
    | some n => m2.filter (fun r =>
        match num_res_0 r with | some k => decide (k ≤ n) | none => false)
  m3

/-- Embeds `ProteinDataset.__init__` (with the metadata table supplied, the
file-loading branch being external storage): filter, shuffle, then validate
the attribute allow-list; `attrs = none` stands for the `"all"` sentinel.
The random `sample(frac=1)` is the explicit `shuffle` parameter. -/
def datasetInit (base_path : String) (transform : Option (ProteinDatum → ProteinDatum))
    (attrs : Option (List String)) (metadata : List MetadataRow)
    (max_resolution : Option Int) (min_sequence_length max_sequence_length : Option Nat)
    (shuffle : List MetadataRow → List MetadataRow) : Except String ProteinDataset :=
  let m := shuffle (filteredTable metadata max_resolution min_sequence_length max_sequence_length)
  match attrs with
  | none => Except.ok ⟨base_path, transform, m, protein_attrs⟩
  | some l =>
      match checkAttrs l with
      | Except.error e => Except.error e
      | Except.ok _ => Except.ok ⟨base_path, transform, m, l⟩

/-- Whether `ProteinDataset.__init__` raises. -/
def initFails (base_path : String) (transform : Option (ProteinDatum → ProteinDatum))
    (attrs : Option (List String)) (metadata : List MetadataRow)
    (max_resolution : Option Int) (min_sequence_length max_sequence_length : Option Nat)
    (shuffle : List MetadataRow → List MetadataRow) : Bool :=
  match datasetInit base_path transform attrs metadata max_resolution
      min_sequence_length max_sequence_length shuffle with
  | Except.error _ => true
  | Except.ok _ => false

/-- Embeds `ProteinDataset.__len__`: `len(self.metadata)`. -/
def datasetLen (v : ProteinDataset) : Nat := v.metadata.length

/-- The two retrieval-time failures of `ProteinDataset.__getitem__`:
an out-of-range index (pandas `iloc` raises `IndexError`) and a
missing/corrupt backing file. -/
inductive GetError
  | bounds
  | storage
deriving DecidableEq

/-- Embeds the optional transform application in `__getitem__`. -/
def applyTransform (t : Option (ProteinDatum → ProteinDatum)) (p : ProteinDatum) : ProteinDatum :=
  match t with
  | none => p
  | some f => f p

/-- Embeds `ProteinDataset.__getitem__`: look up row `idx` (`iloc`), build
the file path `os.path.join(base_path, pdb_id + ".pdb")`, load the record
(`ProteinDatum.from_filepath`, external, passed in as `load`), and apply the
transform when present. -/
def datasetGetItem (load : String → Except Unit ProteinDatum)
    (v : ProteinDataset) (idx : Nat) : Except GetError ProteinDatum :=
  match v.metadata.get? idx with
  | none => Except.error GetError.bounds
  | some row =>
      match load (v.base_path ++ "/" ++ row.idcode ++ ".pdb") with
      | Except.error _ => Except.error GetError.storage
      | Except.ok protein => Except.ok (applyTransform v.transform protein)

/-! Concrete records and oracles used by witnesses and counterexamples. -/

/-- A record with one residue, all of it in chain 0. -/
def singleChainDatum : ProteinDatum :=
  { idcode := "1XYZ", resolution := 2, sequence := [7],
    residue_token := [7], chain_token := [0] }

/-- A record with 33 chains, indices 0 through 32, one residue each. -/
def manyChainDatum : ProteinDatum :=
  { idcode := "2XYZ", resolution := 1, sequence := List.range 33,
    residue_token := List.range 33, chain_token := List.range 33 }

/-- A record with 34 chains, indices 0 through 33, one residue each. -/
def hugeChainDatum : ProteinDatum :=
  { idcode := "3XYZ", resolution := 1, sequence := List.range 34,
    residue_token := List.range 34, chain_token := List.range 34 }

/-- A fetch oracle that returns `singleChainDatum` for every identifier. -/
def dupFetch : String → Except FetchError ProteinDatum :=
  fun _ => Except.ok singleChainDatum

/-- Claim C1 (code_bug): on `singleChainDatum` — chain assignments 0-based
and contiguous, chain 0 present with one residue — the extractor emits NO
per-chain count at all (`range(np.max(chain_token))` is `range(0)`), so the
row lacks a count for chain 0 and the per-chain counts sum to 0, not to the
total residue count 1.  The code contradicts its own schema
(`num_res_0 .. num_res_31` columns) and its own `__init__` filters on
`num_res_0`. -/
theorem extract_misses_last_chain :
    (extract_datum_row singleChainDatum).chain_counts = []
    ∧ (extract_datum_row singleChainDatum).num_res = 1
    ∧ ¬ (((extract_datum_row singleChainDatum).chain_counts.map Prod.snd).sum
        = (extract_datum_row singleChainDatum).num_res) := by
  decide

/-- Counterexample to claim C2: `manyChainDatum` contains chain index 32,
at `MAX_COMPLEX_SIZE`, yet `_extract_datum_row` completes normally — there
is no error path in the source — returning counts for chains 0..31 and
silently dropping chain 32. -/
theorem extract_total_beyond_max_chains :
    32 ∈ manyChainDatum.chain_token
    ∧ MAX_COMPLEX_SIZE ≤ 32
    ∧ (extract_datum_row manyChainDatum).chain_counts
        = (List.range 32).map (fun c => (c, 1)) := by
  decide

/-- Claim C2 as amended: extraction never raises on a chain index at or
beyond `MAX_COMPLEX_SIZE`; every such index below the record's maximum
chain token still receives a per-chain count equal to its residue count (a
column beyond the fixed 32-slot schema), and the maximum chain index is
silently dropped. -/
theorem extract_excess_chain_counted (d : ProteinDatum) (c : Nat)
    (hmax : MAX_COMPLEX_SIZE ≤ c) (hlt : c < npMax d.chain_token) :
    (c, d.chain_token.count c) ∈ (extract_datum_row d).chain_counts := by
  simp only [extract_datum_row, List.mem_map, List.mem_range]
  exact ⟨c, hlt, rfl⟩

/-- Witness for `extract_excess_chain_counted` at `hugeChainDatum`, chain 32. -/
theorem extract_excess_chain_counted_witness :
    (32, 1) ∈ (extract_datum_row hugeChainDatum).chain_counts :=
  extract_excess_chain_counted hugeChainDatum 32 (by decide) (by decide)

/-- Counterexample to claim C3: building with the duplicate identifier list
`["1XYZ", "1XYZ"]` (both fetches succeeding) yields two rows with the same
identifier — nothing is deduplicated or rejected. -/
theorem build_duplicates_not_deduped :
    (build dupFetch ["1XYZ", "1XYZ"] 1).map MetadataRow.idcode = ["1XYZ", "1XYZ"]
    ∧ ¬ ((build dupFetch ["1XYZ", "1XYZ"] 1).map MetadataRow.idcode).Nodup := by
  decide

/-- Claim C3 as amended: `build` yields exactly one row per successfully
processed identifier OCCURRENCE — duplicate identifiers in the input yield
duplicate rows with the same identifier. -/
theorem build_row_per_success_occurrence
    (fetch : String → Except FetchError ProteinDatum) (ids : List String) :
    (build fetch ids 1).length
      = ids.countP (fun i => (maybe_fetch_and_extract fetch i).isSome) := by
  simp only [build, if_neg (by omega : ¬ (1 : Nat) < 1)]
  induction ids with
  | nil => rfl
  | cons x xs ih =>
      simp only [List.map_cons, List.filterMap_cons, List.countP_cons, id]
      cases h : maybe_fetch_and_extract fetch x with
      | none => simpa [h] using ih
      | some r => simpa [h] using ih

/-- The record fetched for identifier `"A1"` in the build scenario. -/
def datumA1 : ProteinDatum :=
  { idcode := "A1", resolution := 1, sequence := [3],
    residue_token := [3], chain_token := [0] }

/-- The record fetched for identifier `"A2"` in the build scenario. -/
def datumA2 : ProteinDatum :=
  { idcode := "A2", resolution := 2, sequence := [4],
    residue_token := [4], chain_token := [0] }

/-- The scenario fetch oracle: `"A1"` and `"A2"` succeed, every other
identifier (in particular `"BAD"`) raises a content error. -/
def scenarioFetch : String → Except FetchError ProteinDatum := fun pdb_id =>
  if pdb_id = "A1" then Except.ok datumA1
  else if pdb_id = "A2" then Except.ok datumA2
  else Except.error FetchError.contentError

/-- A fetch oracle returning a record whose sequence is empty. -/
def emptySeqFetch : String → Except FetchError ProteinDatum :=
  fun _ => Except.ok
    { idcode := "E0", resolution := 1, sequence := [],
      residue_token := [], chain_token := [] }

/-- Claim C4: a fetch that fails with a content or request error yields no
row, as does a fetched record with an empty sequence; `build` keeps exactly
the rows of the surviving identifiers (it is total — no exception escapes
to the caller); and in the concrete scenario `["A1", "A2", "BAD"]` at
`max_workers = 1` the resulting table has exactly the two rows `A1` and
`A2`. -/
theorem build_skips_failed_ids :
    (∀ (fetch : String → Except FetchError ProteinDatum) (pdb_id : String)
        (e : FetchError), fetch pdb_id = Except.error e →
        maybe_fetch_and_extract fetch pdb_id = none)
    ∧ (∀ (fetch : String → Except FetchError ProteinDatum) (pdb_id : String)
        (d : ProteinDatum), fetch pdb_id = Except.ok d → d.sequence.length = 0 →
        maybe_fetch_and_extract fetch pdb_id = none)
    ∧ (∀ (fetch : String → Except FetchError ProteinDatum) (ids : List String),
        build fetch ids 1 = ids.filterMap (maybe_fetch_and_extract fetch))
    ∧ (build scenarioFetch ["A1", "A2", "BAD"] 1).map MetadataRow.idcode = ["A1", "A2"]
    ∧ (build scenarioFetch ["A1", "A2", "BAD"] 1).length = 2 := by
  refine ⟨?_, ?_, ?_, by decide, by decide⟩
  · intro fetch pdb_id e h
    simp [maybe_fetch_and_extract, h]
  · intro fetch pdb_id d h hlen
    simp [maybe_fetch_and_extract, h, hlen]
  · intro fetch ids
    simp only [build, if_neg (by omega : ¬ (1 : Nat) < 1)]
    induction ids with
    | nil => rfl
    | cons x xs ih => simp only [List.map_cons, List.filterMap_cons, id_eq, ih]

/-- Witness for `build_skips_failed_ids`: the failing identifier `"BAD"` and
an empty-sequence record are both skipped. -/
theorem build_skips_failed_ids_witness :
    maybe_fetch_and_extract scenarioFetch "BAD" = none
    ∧ maybe_fetch_and_extract emptySeqFetch "E0" = none :=
  ⟨build_skips_failed_ids.1 scenarioFetch "BAD" FetchError.contentError
     (by simp [scenarioFetch]),
   build_skips_failed_ids.2.1 emptySeqFetch "E0"
     { idcode := "E0", resolution := 1, sequence := [],
       residue_token := [], chain_token := [] } rfl rfl⟩

/-- The conjunction of the three optional thresholds of
`ProteinDataset.__init__`, as a single row predicate. -/
def passesFilters (max_resolution : Option Int)
    (min_sequence_length max_sequence_length : Option Nat) (r : MetadataRow) : Bool :=
  (match max_resolution with
    | none => true
    | some R => decide (r.resolution ≤ R))
  && (match min_sequence_length with
    | none => true
    | some n => match num_res_0 r with | some k => decide (n ≤ k) | none => false)
  && (match max_sequence_length with
    | none => true
    | some n => match num_res_0 r with | some k => decide (k ≤ n) | none => false)

/-- The three sequential filters of `__init__` equal one pass with the
conjoined predicate. -/
theorem filteredTable_eq_filter (md : List MetadataRow) (mr : Option Int)
    (mn mx : Option Nat) :
    filteredTable md mr mn mx = md.filter (fun r => passesFilters mr mn mx r) := by
  cases mr <;> cases mn <;> cases mx <;>
    simp [filteredTable, passesFilters, List.filter_filter, Bool.and_comm,
      Bool.and_left_comm, Bool.and_assoc]

/-- Inverting a successful `datasetInit`: the fields of the view other than
`attrs` do not depend on the allow-list. -/
theorem datasetInit_ok_core (bp : String) (tr : Option (ProteinDatum → ProteinDatum))
    (attrs : Option (List String)) (md : List MetadataRow) (mr : Option Int)
    (mn mx : Option Nat) (sh : List MetadataRow → List MetadataRow)
    (v : ProteinDataset)
    (h : datasetInit bp tr attrs md mr mn mx sh = Except.ok v) :
    v.base_path = bp ∧ v.transform = tr ∧ v.metadata = sh (filteredTable md mr mn mx) := by
  cases attrs with
  | none =>
      simp only [datasetInit] at h
      cases h
      exact ⟨rfl, rfl, rfl⟩
  | some l =>
      simp only [datasetInit] at h
      cases hc : checkAttrs l with
      | error e => rw [hc] at h; cases h
      | ok u => rw [hc] at h; cases h; exact ⟨rfl, rfl, rfl⟩

/-- A metadata row with resolution 1 and 5 residues in chain 0. -/
def rowLowRes : MetadataRow :=
  { idcode := "L", standard := true, resolution := 1, num_res := 5,
    chain_counts := [(0, 5)] }

/-- A metadata row with resolution 3 and 6 residues in chain 0. -/
def rowHighRes : MetadataRow :=
  { idcode := "H", standard := true, resolution := 3, num_res := 6,
    chain_counts := [(0, 6)] }

/-- Claim C5: for every supplied combination of thresholds, a successfully
constructed view retains exactly the rows of the input table passing every
supplied filter (absent thresholds impose no constraint): its metadata is a
permutation of the filtered table (the shuffle changes only the order), and
`__len__` equals the number of passing rows. -/
theorem datasetInit_filters_exact (bp : String)
    (tr : Option (ProteinDatum → ProteinDatum)) (attrs : Option (List String))
    (md : List MetadataRow) (mr : Option Int) (mn mx : Option Nat)
    (sh : List MetadataRow → List MetadataRow) (v : ProteinDataset)
    (hsh : ∀ l, List.Perm (sh l) l)
    (h : datasetInit bp tr attrs md mr mn mx sh = Except.ok v) :
    List.Perm v.metadata (md.filter (fun r => passesFilters mr mn mx r))
    ∧ datasetLen v = (md.filter (fun r => passesFilters mr mn mx r)).length := by
  obtain ⟨-, -, hm⟩ := datasetInit_ok_core bp tr attrs md mr mn mx sh v h
  have hp : List.Perm v.metadata (md.filter (fun r => passesFilters mr mn mx r)) := by
    rw [hm, ← filteredTable_eq_filter]
    exact hsh _
  exact ⟨hp, hp.length_eq⟩

/-- Witness for `datasetInit_filters_exact`: table `[rowLowRes, rowHighRes]`
with `max_resolution = 2` keeps exactly `rowLowRes`. -/
theorem datasetInit_filters_exact_witness :
    List.Perm (ProteinDataset.mk "p" none [rowLowRes] protein_attrs).metadata
      ([rowLowRes, rowHighRes].filter (fun r => passesFilters (some 2) none none r))
    ∧ datasetLen (ProteinDataset.mk "p" none [rowLowRes] protein_attrs)
      = ([rowLowRes, rowHighRes].filter (fun r => passesFilters (some 2) none none r)).length :=
  datasetInit_filters_exact "p" none none [rowLowRes, rowHighRes] (some 2) none none
    id (ProteinDataset.mk "p" none [rowLowRes] protein_attrs)
    (fun l => List.Perm.refl l) rfl

/-- Claim C6: `__getitem__` never hits the bounds error for an index below
`__len__`, and hits exactly the bounds error at `__len__`, whatever the
storage loader does. -/
theorem datasetGetItem_bounds (load : String → Except Unit ProteinDatum)
    (v : ProteinDataset) :
    (∀ i, i < datasetLen v → datasetGetItem load v i ≠ Except.error GetError.bounds)
    ∧ datasetGetItem load v (datasetLen v) = Except.error GetError.bounds := by
  constructor
  · intro i hi
    obtain ⟨row, hrow⟩ : ∃ row, v.metadata.get? i = some row :=
      ⟨v.metadata.get ⟨i, hi⟩, List.get?_eq_get hi⟩
    simp only [datasetGetItem, hrow]
    cases load (v.base_path ++ "/" ++ row.idcode ++ ".pdb") <;> simp
  · have hnone : v.metadata.get? v.metadata.length = none := by
      simp [List.get?_eq_none]
    simp [datasetGetItem, datasetLen, hnone]

/-- The view used by the retrieval witnesses: one row, no transform. -/
def viewOneRow : ProteinDataset :=
  { base_path := "p", transform := none, metadata := [rowLowRes],
    attrs := protein_attrs }

/-- A storage loader with no files at all. -/
def noLoad : String → Except Unit ProteinDatum := fun _ => Except.error ()

/-- Witness for `datasetGetItem_bounds` on a one-row view. -/
theorem datasetGetItem_bounds_witness :
    datasetGetItem noLoad viewOneRow 0 ≠ Except.error GetError.bounds
    ∧ datasetGetItem noLoad viewOneRow 1 = Except.error GetError.bounds :=
  ⟨(datasetGetItem_bounds noLoad viewOneRow).1 0 (by decide),
   (datasetGetItem_bounds noLoad viewOneRow).2⟩

/-- The attribute-validation loop fails exactly when some requested
attribute is not in `protein_attrs`. -/
theorem checkAttrs_fails_iff (l : List String) :
    (match checkAttrs l with | Except.error _ => true | Except.ok _ => false)
      = !(l.all (fun a => protein_attrs.contains a)) := by
  induction l with
  | nil => rfl
  | cons a rest ih =>
      by_cases hm : a ∈ protein_attrs
      · simpa [checkAttrs, hm] using ih
      · simp [checkAttrs, hm]

/-- Claim C7: construction with an explicit allow-list raises exactly when
some requested attribute is outside the recognized `protein_attrs` set (and
the error surfaces at construction, before any retrieval); an allow-list of
recognized attributes never makes construction fail. -/
theorem datasetInit_attr_validation (bp : String)
    (tr : Option (ProteinDatum → ProteinDatum)) (md : List MetadataRow)
    (mr : Option Int) (mn mx : Option Nat)
    (sh : List MetadataRow → List MetadataRow) (l : List String) :
    initFails bp tr (some l) md mr mn mx sh
      = !(l.all (fun a => protein_attrs.contains a)) := by
  rw [← checkAttrs_fails_iff l]
  simp only [initFails, datasetInit]
  cases checkAttrs l <;> rfl

/-- Claim C8: the extracted `standard` flag is `false` exactly when every
residue token is the unknown token, and `true` as soon as one residue token
differs from it. -/
theorem extract_standard_iff (d : ProteinDatum) :
    ((extract_datum_row d).standard = false ↔ ∀ t ∈ d.residue_token, t = UNK_TOKEN)
    ∧ ((∃ t ∈ d.residue_token, t ≠ UNK_TOKEN) → (extract_datum_row d).standard = true) := by
  constructor
  · simp [extract_datum_row, List.all_eq_true]
  · intro ⟨t, ht, hne⟩
    simp only [extract_datum_row, Bool.not_eq_true', List.all_eq_false]
    exact ⟨t, ht, by simpa using hne⟩

/-- A record mixing an unknown residue with a standard one. -/
def mixedDatum : ProteinDatum :=
  { idcode := "4XYZ", resolution := 1, sequence := [UNK_TOKEN, 5],
    residue_token := [UNK_TOKEN, 5], chain_token := [0, 0] }

/-- Witness for `extract_standard_iff`: one non-unknown residue makes the
record standard. -/
theorem extract_standard_iff_witness :
    (extract_datum_row mixedDatum).standard = true :=
  (extract_standard_iff mixedDatum).2 ⟨5, by decide, by decide⟩

/-- The chunked worker-pool map equals the plain sequential map:
`process_map` dispatches chunks to workers but returns results in input
order. -/
theorem processMap_eq_map (f : String → Option MetadataRow) :
    (l : List String) → processMap f l = l.map f
  | [] => by rw [processMap, List.map_nil]
  | x :: xs => by
      rw [processMap, processMap_eq_map f ((x :: xs).drop 50),
        ← List.map_append, List.take_append_drop]
termination_by l => l.length
decreasing_by simp; omega

/-- Claim C9: with a worker pool (`max_workers > 1`) `build` returns the
very same row list as the sequential run over the same identifiers with the
same per-identifier fetch outcomes — so in particular the same multiset of
rows. -/
theorem build_parallel_eq_sequential (fetch : String → Except FetchError ProteinDatum)
    (ids : List String) (w : Nat) (hw : 1 < w) :
    build fetch ids w = build fetch ids 1 := by
  simp only [build, if_pos hw, if_neg (by omega : ¬ (1 : Nat) < 1),
    processMap_eq_map]

/-- Witness for `build_parallel_eq_sequential` at two workers. -/
theorem build_parallel_eq_sequential_witness :
    build dupFetch ["1XYZ", "5ABC"] 2 = build dupFetch ["1XYZ", "5ABC"] 1 :=
  build_parallel_eq_sequential dupFetch ["1XYZ", "5ABC"] 2 (by decide)

/-- Claim C10: two views constructed over the same base path, table,
transform, thresholds and shuffle outcome, differing only in their (valid)
attribute allow-lists, return the same record for every index — the
allow-list plays no part in `__getitem__`. -/
theorem getitem_independent_of_attrs (bp : String)
    (tr : Option (ProteinDatum → ProteinDatum)) (md : List MetadataRow)
    (mr : Option Int) (mn mx : Option Nat)
    (sh : List MetadataRow → List MetadataRow)
    (attrs1 attrs2 : Option (List String)) (v1 v2 : ProteinDataset)
    (h1 : datasetInit bp tr attrs1 md mr mn mx sh = Except.ok v1)
    (h2 : datasetInit bp tr attrs2 md mr mn mx sh = Except.ok v2)
    (load : String → Except Unit ProteinDatum) (idx : Nat) :
    datasetGetItem load v1 idx = datasetGetItem load v2 idx := by
  obtain ⟨e1, e2, e3⟩ := datasetInit_ok_core bp tr attrs1 md mr mn mx sh v1 h1
  obtain ⟨f1, f2, f3⟩ := datasetInit_ok_core bp tr attrs2 md mr mn mx sh v2 h2
  simp only [datasetGetItem, e1, e2, e3, f1, f2, f3]

/-- Witness for `getitem_independent_of_attrs`: allow-list `["idcode"]`
versus the full default, same record at index 0. -/
theorem getitem_independent_of_attrs_witness :
    datasetGetItem noLoad (ProteinDataset.mk "p" none [rowLowRes] protein_attrs) 0
      = datasetGetItem noLoad (ProteinDataset.mk "p" none [rowLowRes] ["idcode"]) 0 :=
  getitem_independent_of_attrs "p" none [rowLowRes] none none none id
    none (some ["idcode"])
    (ProteinDataset.mk "p" none [rowLowRes] protein_attrs)
    (ProteinDataset.mk "p" none [rowLowRes] ["idcode"])
    rfl rfl noLoad 0
